import Mathlib

/-!
Shallow embedding of `src/leg.py` (the LEG virtual CPU) and proofs of the
spec's testable properties about it.

The Python program is a list whose entries are, dynamically, either an
`Opcodes` enum member, an `Addresses` enum member, or a raw integer
(the demo program mixes all three, and the spec describes each byte slot as
"either an opcode code, an address code, or a raw immediate integer").
Python enum members are never `==`-equal to integers or to members of the
other enum, so we embed a program entry as the inductive `Slot` below, with
structural (constructor-wise) equality mirroring Python `==` on that union.

The register file maps the seven addresses REG0..REG5, PC to integers; the
`ram`, `stack` buffers and the input/output stream handles of `LEG.__init__`
are allocated but never touched by any operation of the core, so the stream
handles are not carried in the state (ram/stack are, as inert fields).

Operations that would raise a Python `TypeError` (adding an enum member to
an integer in `_op_addi`/`_op_andi`) or that would store a non-integer into
the register file (`_op_ifeq` with a non-integer jump target writes the raw
slot into PC) leave the integer-valued register model and are mapped to
`none`; `_read_program` likewise returns `none` where Python raises
`IndexError` on an out-of-range fetch.
-/

/-- The opcode enumeration of `leg.py` (`class Opcodes`): implemented
calculation and jump opcodes plus the reserved, unimplemented slots
IFNE, LOAD, SAVE. -/
inductive Opcodes where
  | ADD
  | ADDI
  | AND
  | ANDI
  | IFEQ
  | IFNE
  | LOAD
  | SAVE
deriving DecidableEq

/-- The address enumeration of `leg.py` (`class Addresses`): six general
purpose registers, the program counter, and the I/O port (named `IOAddr`
here; `IO` in the source). -/
inductive Addresses where
  | REG0
  | REG1
  | REG2
  | REG3
  | REG4
  | REG5
  | PC
  | IOAddr
deriving DecidableEq

/-- One entry of the program list: an opcode code, an address code, or a raw
integer immediate.  Python `==` between the three kinds is always false,
which is exactly constructor-wise equality. -/
inductive Slot where
  | op (o : Opcodes)
  | addr (a : Addresses)
  | lit (n : Nat)
deriving DecidableEq

/-- The register file: the dictionary `self.registers`, whose keys are
exactly REG0..REG5 and PC (the I/O port has no entry). -/
structure Registers where
  REG0 : Nat
  REG1 : Nat
  REG2 : Nat
  REG3 : Nat
  REG4 : Nat
  REG5 : Nat
  PC : Nat
deriving DecidableEq

/-- Dictionary lookup in `self.registers`: `some` for the seven stored
addresses, `none` for the I/O port (not a key of the dictionary). -/
def regLookup (r : Registers) : Addresses → Option Nat
  | .REG0 => some r.REG0
  | .REG1 => some r.REG1
  | .REG2 => some r.REG2
  | .REG3 => some r.REG3
  | .REG4 => some r.REG4
  | .REG5 => some r.REG5
  | .PC => some r.PC
  | .IOAddr => none

/-- The machine state of `class LEG`: program, the two inert memory
buffers, the register file, and the `_jumping` flag. -/
structure LEG where
  program : List Slot
  ram : List Nat
  stack : List Nat
  registers : Registers
  jumping : Bool
deriving DecidableEq

/-- `LEG.__init__`: zeroed registers, 255-byte ram and stack, jump flag
down. -/
def LEG.init (program : List Slot) : LEG :=
  { program := program
    ram := List.replicate 255 0
    stack := List.replicate 255 0
    registers := ⟨0, 0, 0, 0, 0, 0, 0⟩
    jumping := false }

/-- `LEG._get`: a stored register address reads its value, anything else
(the I/O port, an opcode member, a raw integer) reads 0.  Never fails. -/
def LEG._get (m : LEG) (arg : Slot) : Nat :=
  match arg with
  | .addr a =>
    match regLookup m.registers a with
    | some v => v
    | none => 0
  | _ => 0

/-- `LEG._set`: a stored register address is overwritten, anything else
(the I/O port, an opcode member, a raw integer) is a no-op.  Never fails. -/
def LEG._set (m : LEG) (arg : Slot) (value : Nat) : LEG :=
  match arg with
  | .addr .REG0 => { m with registers := { m.registers with REG0 := value } }
  | .addr .REG1 => { m with registers := { m.registers with REG1 := value } }
  | .addr .REG2 => { m with registers := { m.registers with REG2 := value } }
  | .addr .REG3 => { m with registers := { m.registers with REG3 := value } }
  | .addr .REG4 => { m with registers := { m.registers with REG4 := value } }
  | .addr .REG5 => { m with registers := { m.registers with REG5 := value } }
  | .addr .PC => { m with registers := { m.registers with PC := value } }
  | _ => m

/-- `LEG._op_add`: destination := (value(src1) + value(src2)) % 255. -/
def LEG._op_add (m : LEG) (arg1_reg arg2_reg res_reg : Slot) : Option LEG :=
  let a := m._get arg1_reg
  let b := m._get arg2_reg
  let res := (a + b) % 255
  some (m._set res_reg res)

/-- `LEG._op_addi`: destination := (value(src) + immediate) % 255.  The
second operand is used as a raw integer; on a non-integer slot Python
raises `TypeError` (`none` here). -/
def LEG._op_addi (m : LEG) (arg1_reg arg2_im res_reg : Slot) : Option LEG :=
  match arg2_im with
  | .lit b =>
    let a := m._get arg1_reg
    let res := (a + b) % 255
    some (m._set res_reg res)
  | _ => none

/-- `LEG._op_and`: destination := value(src1) &&& value(src2), no
reduction. -/
def LEG._op_and (m : LEG) (arg1_reg arg2_reg res_reg : Slot) : Option LEG :=
  let a := m._get arg1_reg
  let b := m._get arg2_reg
  let res := a &&& b
  some (m._set res_reg res)

/-- `LEG._op_andi`: destination := value(src) &&& immediate; on a
non-integer second operand Python raises `TypeError` (`none` here). -/
def LEG._op_andi (m : LEG) (arg1_reg arg2_im res_reg : Slot) : Option LEG :=
  match arg2_im with
  | .lit b =>
    let a := m._get arg1_reg
    let res := a &&& b
    some (m._set res_reg res)
  | _ => none

/-- `LEG._op_ifeq`: if value(A) == value(B), write the raw third operand
into PC and raise the jump flag; otherwise do nothing.  A non-integer jump
target would store a non-integer into PC, leaving the integer-valued
register model (`none` here). -/
def LEG._op_ifeq (m : LEG) (arg1_reg arg2_reg jump_addr : Slot) : Option LEG :=
  let a := m._get arg1_reg
  let b := m._get arg2_reg
  if a = b then
    match jump_addr with
    | .lit t =>
      some { m with registers := { m.registers with PC := t }, jumping := true }
    | _ => none
  else
    some m

/-- The dispatch dictionary `self._opcodes`: handlers are registered for
ADD, ADDI, AND, ANDI, IFEQ only. -/
def LEG._opcodes : Opcodes → Option (LEG → Slot → Slot → Slot → Option LEG)
  | .ADD => some LEG._op_add
  | .ADDI => some LEG._op_addi
  | .AND => some LEG._op_and
  | .ANDI => some LEG._op_andi
  | .IFEQ => some LEG._op_ifeq
  | _ => none

/-- `LEG._apply`: look the fetched opcode slot up in the dispatch
dictionary (only an `Opcodes` member can be a key); invoke the handler if
one is registered, otherwise do nothing. -/
def LEG._apply (m : LEG) (opcode arg1 arg2 arg3 : Slot) : Option LEG :=
  match opcode with
  | .op oc =>
    match LEG._opcodes oc with
    | some f => f m arg1 arg2 arg3
    | none => some m
  | _ => some m

/-- `LEG._read_program`: fetch `program[pc] .. program[pc+3]`; Python
raises `IndexError` when an index is out of range (`none` here). -/
def LEG._read_program (m : LEG) : Option (Slot × Slot × Slot × Slot) :=
  let pc := m.registers.PC
  (m.program[pc]?).bind fun opcode =>
    (m.program[pc+1]?).bind fun arg1 =>
      (m.program[pc+2]?).bind fun arg2 =>
        (m.program[pc+3]?).bind fun arg3 =>
          some (opcode, arg1, arg2, arg3)

/-- `LEG.tick`: fetch, dispatch, then either advance PC by 4 modulo 255
(jump flag down) or reset the jump flag and leave PC as the handler set
it. -/
def LEG.tick (m : LEG) : Option LEG :=
  match m._read_program with
  | none => none
  | some (opcode, arg1, arg2, arg3) =>
    match m._apply opcode arg1 arg2 arg3 with
    | none => none
    | some m2 =>
      if m2.jumping = false then
        some { m2 with registers := { m2.registers with PC := (m2.registers.PC + 4) % 255 } }
      else
        some { m2 with jumping := false }

/-- A slot names a stored register (a key of `self.registers`) exactly when
it is an address other than the I/O port. -/
def isRegisterAddress : Slot → Bool
  | .addr .IOAddr => false
  | .addr _ => true
  | _ => false

/-- A fetched opcode slot has a registered handler exactly when it is an
`Opcodes` member that is a key of the dispatch dictionary. -/
def hasHandler : Slot → Bool
  | .op oc => (LEG._opcodes oc).isSome
  | _ => false

/-- The spec's register-file invariant: every stored value lies in
[0, 255). -/
def RegInv (r : Registers) : Prop :=
  r.REG0 < 255 ∧ r.REG1 < 255 ∧ r.REG2 < 255 ∧ r.REG3 < 255 ∧
  r.REG4 < 255 ∧ r.REG5 < 255 ∧ r.PC < 255

instance (r : Registers) : Decidable (RegInv r) := by
  unfold RegInv; infer_instance

/-- A program entry is byte-ranged for the spec's value space when any
literal it carries lies in [0, 255). -/
def SlotOK : Slot → Prop
  | .lit n => n < 255
  | _ => True

instance (s : Slot) : Decidable (SlotOK s) := by
  unfold SlotOK; cases s <;> infer_instance

/-- A concrete machine with a given register file and program, empty
buffers and the jump flag down; used to instantiate theorems. -/
def mkM (r : Registers) (p : List Slot) : LEG :=
  { program := p, ram := [], stack := [], registers := r, jumping := false }

example : (LEG.init [Slot.op .ADD])._get (Slot.addr .REG0) = 0 := by decide

example :
    ((LEG.init [])._set (Slot.addr .REG2) 9).registers = ⟨0, 0, 9, 0, 0, 0, 0⟩ := by
  decide

/-- C1: a register-register ADD with a register destination leaves the
destination holding (value(src1) + value(src2)) mod 255 and every other
register unchanged. -/
theorem add_reg_reg_correct (m m' : LEG) (src1 src2 : Slot) (dest : Addresses)
    (hd : dest ≠ Addresses.IOAddr)
    (h : m._op_add src1 src2 (Slot.addr dest) = some m') :
    regLookup m'.registers dest = some ((m._get src1 + m._get src2) % 255) ∧
    ∀ a : Addresses, a ≠ dest → regLookup m'.registers a = regLookup m.registers a := by
  cases dest <;>
    simp only [LEG._op_add, LEG._set, Option.some.injEq] at h <;>
    first
      | exact absurd rfl hd
      | (subst h
         refine ⟨rfl, ?_⟩
         intro a ha
         cases a <;> simp_all [regLookup])

/-- Witness for C1: from REG0 = 1, REG1 = 2, ADD REG0 REG1 → REG2 stores 3
and leaves REG0 alone. -/
theorem add_reg_reg_correct_witness :
    (mkM ⟨1, 2, 0, 0, 0, 0, 0⟩ [])._op_add (Slot.addr .REG0) (Slot.addr .REG1)
        (Slot.addr .REG2) = some (mkM ⟨1, 2, 3, 0, 0, 0, 0⟩ []) ∧
    regLookup (mkM ⟨1, 2, 3, 0, 0, 0, 0⟩ []).registers Addresses.REG2 = some 3 ∧
    regLookup (mkM ⟨1, 2, 3, 0, 0, 0, 0⟩ []).registers Addresses.REG0 =
      regLookup (mkM ⟨1, 2, 0, 0, 0, 0, 0⟩ []).registers Addresses.REG0 := by
  have h := add_reg_reg_correct (mkM ⟨1, 2, 0, 0, 0, 0, 0⟩ [])
    (mkM ⟨1, 2, 3, 0, 0, 0, 0⟩ []) (Slot.addr .REG0) (Slot.addr .REG1) .REG2
    (by decide) (by decide)
  exact ⟨by decide, h.1, h.2 .REG0 (by decide)⟩

/-- C3: a register-immediate ADDI with a register destination leaves the
destination holding (value(src) + immediate) mod 255 and every other
register unchanged. -/
theorem addi_correct (m m' : LEG) (src : Slot) (n : Nat) (dest : Addresses)
    (hd : dest ≠ Addresses.IOAddr)
    (h : m._op_addi src (Slot.lit n) (Slot.addr dest) = some m') :
    regLookup m'.registers dest = some ((m._get src + n) % 255) ∧
    ∀ a : Addresses, a ≠ dest → regLookup m'.registers a = regLookup m.registers a := by
  cases dest <;>
    simp only [LEG._op_addi, LEG._set, Option.some.injEq] at h <;>
    first
      | exact absurd rfl hd
      | (subst h
         refine ⟨rfl, ?_⟩
         intro a ha
         cases a <;> simp_all [regLookup])

/-- Witness for C3, the spec's Scenario 4: REG0 = 250, ADDI REG0 10 REG0 →
REG0 stores (260 mod 255) = 5, not 4. -/
theorem addi_correct_witness :
    (mkM ⟨250, 0, 0, 0, 0, 0, 0⟩ [])._op_addi (Slot.addr .REG0) (Slot.lit 10)
        (Slot.addr .REG0) = some (mkM ⟨5, 0, 0, 0, 0, 0, 0⟩ []) ∧
    regLookup (mkM ⟨5, 0, 0, 0, 0, 0, 0⟩ []).registers Addresses.REG0 = some 5 := by
  have h := addi_correct (mkM ⟨250, 0, 0, 0, 0, 0, 0⟩ [])
    (mkM ⟨5, 0, 0, 0, 0, 0, 0⟩ []) (Slot.addr .REG0) 10 .REG0 (by decide) (by decide)
  exact ⟨by decide, h.1⟩

/-- C4: AND and ANDI with a register destination store exactly the bitwise
AND of the two operand values, with no reduction, and the stored result has
no bit set that is not set in both operands. -/
theorem and_andi_exact :
    (∀ (m m' : LEG) (src1 src2 : Slot) (dest : Addresses),
      dest ≠ Addresses.IOAddr →
      m._op_and src1 src2 (Slot.addr dest) = some m' →
      regLookup m'.registers dest = some (m._get src1 &&& m._get src2) ∧
      ∀ i, (m._get src1 &&& m._get src2).testBit i =
        (Nat.testBit (m._get src1) i && Nat.testBit (m._get src2) i)) ∧
    (∀ (m m' : LEG) (src : Slot) (n : Nat) (dest : Addresses),
      dest ≠ Addresses.IOAddr →
      m._op_andi src (Slot.lit n) (Slot.addr dest) = some m' →
      regLookup m'.registers dest = some (m._get src &&& n) ∧
      ∀ i, (m._get src &&& n).testBit i =
        (Nat.testBit (m._get src) i && Nat.testBit n i)) := by
  constructor
  · intro m m' src1 src2 dest hd h
    refine ⟨?_, fun i => Nat.testBit_land _ _ i⟩
    cases dest <;>
      simp only [LEG._op_and, LEG._set, Option.some.injEq] at h <;>
      first
        | exact absurd rfl hd
        | (subst h; rfl)
  · intro m m' src n dest hd h
    refine ⟨?_, fun i => Nat.testBit_land _ _ i⟩
    cases dest <;>
      simp only [LEG._op_andi, LEG._set, Option.some.injEq] at h <;>
      first
        | exact absurd rfl hd
        | (subst h; rfl)

/-- Witness for C4, the spec's Scenario 2: REG0 = 170, REG1 = 15,
AND REG0 REG1 REG2 → REG2 stores 10, and bit 0 of the result is the AND of
the operand bits. -/
theorem and_andi_exact_witness :
    (mkM ⟨170, 15, 0, 0, 0, 0, 0⟩ [])._op_and (Slot.addr .REG0) (Slot.addr .REG1)
        (Slot.addr .REG2) = some (mkM ⟨170, 15, 10, 0, 0, 0, 0⟩ []) ∧
    regLookup (mkM ⟨170, 15, 10, 0, 0, 0, 0⟩ []).registers Addresses.REG2 = some 10 ∧
    (mkM ⟨170, 15, 0, 0, 0, 0, 0⟩ [])._op_andi (Slot.addr .REG0) (Slot.lit 15)
        (Slot.addr .REG3) = some (mkM ⟨170, 15, 0, 10, 0, 0, 0⟩ []) ∧
    regLookup (mkM ⟨170, 15, 0, 10, 0, 0, 0⟩ []).registers Addresses.REG3 = some 10 := by
  have h1 := and_andi_exact.1 (mkM ⟨170, 15, 0, 0, 0, 0, 0⟩ [])
    (mkM ⟨170, 15, 10, 0, 0, 0, 0⟩ []) (Slot.addr .REG0) (Slot.addr .REG1) .REG2
    (by decide) (by decide)
  have h2 := and_andi_exact.2 (mkM ⟨170, 15, 0, 0, 0, 0, 0⟩ [])
    (mkM ⟨170, 15, 0, 10, 0, 0, 0⟩ []) (Slot.addr .REG0) 15 .REG3
    (by decide) (by decide)
  exact ⟨by decide, h1.1, by decide, h2.1⟩

/-- C6: `_get` on any slot that is not a stored register address (the I/O
port, an opcode member, a raw integer) reads 0, and `_set` on such a slot
changes nothing; both are total. -/
theorem unrecognized_address_noop (m : LEG) (s : Slot) (v : Nat)
    (h : isRegisterAddress s = false) :
    m._get s = 0 ∧ m._set s v = m := by
  cases s with
  | op o => exact ⟨rfl, rfl⟩
  | lit n => exact ⟨rfl, rfl⟩
  | addr a =>
    cases a <;> simp_all [isRegisterAddress, LEG._get, LEG._set, regLookup]

/-- Witness for C6: reads of the I/O port and of a raw byte yield 0, and
writes to them change nothing, on a concrete machine. -/
theorem unrecognized_address_noop_witness :
    ((mkM ⟨1, 2, 3, 4, 5, 6, 7⟩ [])._get (Slot.addr .IOAddr) = 0 ∧
      (mkM ⟨1, 2, 3, 4, 5, 6, 7⟩ [])._set (Slot.addr .IOAddr) 9 =
        mkM ⟨1, 2, 3, 4, 5, 6, 7⟩ []) ∧
    ((mkM ⟨1, 2, 3, 4, 5, 6, 7⟩ [])._get (Slot.lit 123) = 0 ∧
      (mkM ⟨1, 2, 3, 4, 5, 6, 7⟩ [])._set (Slot.lit 123) 9 =
        mkM ⟨1, 2, 3, 4, 5, 6, 7⟩ []) :=
  ⟨unrecognized_address_noop (mkM ⟨1, 2, 3, 4, 5, 6, 7⟩ []) (Slot.addr .IOAddr) 9
      (by decide),
    unrecognized_address_noop (mkM ⟨1, 2, 3, 4, 5, 6, 7⟩ []) (Slot.lit 123) 9
      (by decide)⟩

/-- C2: a tick fetching an IFEQ with literal target: on equal operand
values the tick sets PC to the literal target (no sequential advance, flag
back down, everything else untouched); on unequal values the handler has no
effect and PC advances to (PC + 4) mod 255. -/
theorem ifeq_tick_pc (m : LEG) (A B : Slot) (t : Nat)
    (hj : m.jumping = false)
    (hf : m._read_program = some (Slot.op .IFEQ, A, B, Slot.lit t)) :
    (m._get A = m._get B →
      m.tick = some { m with registers := { m.registers with PC := t } }) ∧
    (m._get A ≠ m._get B →
      m.tick = some
        { m with registers := { m.registers with PC := (m.registers.PC + 4) % 255 } }) := by
  constructor
  · intro heq
    have happ : m._apply (Slot.op .IFEQ) A B (Slot.lit t) =
        some { m with registers := { m.registers with PC := t }, jumping := true } := by
      simp [LEG._apply, LEG._opcodes, LEG._op_ifeq, heq]
    simp [LEG.tick, hf, happ, hj]
  · intro hne
    have happ : m._apply (Slot.op .IFEQ) A B (Slot.lit t) = some m := by
      simp [LEG._apply, LEG._opcodes, LEG._op_ifeq, hne]
    simp [LEG.tick, hf, happ, hj]

/-- Witness for C2: both branches on concrete machines — REG2 = REG3 = 7
with IFEQ target 8 jumps to PC 8; REG0 = 1 ≠ REG1 = 0 falls through to
PC 4. -/
theorem ifeq_tick_pc_witness :
    (mkM ⟨0, 0, 7, 7, 0, 0, 0⟩
        [Slot.op .IFEQ, Slot.addr .REG2, Slot.addr .REG3, Slot.lit 8]).tick =
      some (mkM ⟨0, 0, 7, 7, 0, 0, 8⟩
        [Slot.op .IFEQ, Slot.addr .REG2, Slot.addr .REG3, Slot.lit 8]) ∧
    (mkM ⟨1, 0, 0, 0, 0, 0, 0⟩
        [Slot.op .IFEQ, Slot.addr .REG0, Slot.addr .REG1, Slot.lit 8]).tick =
      some (mkM ⟨1, 0, 0, 0, 0, 0, 4⟩
        [Slot.op .IFEQ, Slot.addr .REG0, Slot.addr .REG1, Slot.lit 8]) :=
  ⟨(ifeq_tick_pc (mkM ⟨0, 0, 7, 7, 0, 0, 0⟩
        [Slot.op .IFEQ, Slot.addr .REG2, Slot.addr .REG3, Slot.lit 8])
      (Slot.addr .REG2) (Slot.addr .REG3) 8 rfl (by decide)).1 (by decide),
    (ifeq_tick_pc (mkM ⟨1, 0, 0, 0, 0, 0, 0⟩
        [Slot.op .IFEQ, Slot.addr .REG0, Slot.addr .REG1, Slot.lit 8])
      (Slot.addr .REG0) (Slot.addr .REG1) 8 rfl (by decide)).2 (by decide)⟩

/-- C5: a tick fetching an instruction whose opcode slot has no registered
handler (a raw byte, an address member, or the reserved opcodes IFNE, LOAD,
SAVE) changes nothing except PC, which advances to (PC + 4) mod 255. -/
theorem unknown_opcode_tick_noop (m : LEG) (o a1 a2 a3 : Slot)
    (hj : m.jumping = false)
    (hf : m._read_program = some (o, a1, a2, a3))
    (hu : hasHandler o = false) :
    m.tick = some
      { m with registers := { m.registers with PC := (m.registers.PC + 4) % 255 } } := by
  have happ : m._apply o a1 a2 a3 = some m := by
    cases o with
    | op oc =>
      cases hoc : LEG._opcodes oc with
      | some f => simp [hasHandler, hoc] at hu
      | none => simp [LEG._apply, hoc]
    | addr a => rfl
    | lit n => rfl
  simp [LEG.tick, hf, happ, hj]

/-- Witness for C5: an unknown raw opcode byte 99 and the reserved opcode
LOAD each tick to a machine identical up to PC = 4. -/
theorem unknown_opcode_tick_noop_witness :
    (mkM ⟨1, 2, 3, 4, 5, 6, 0⟩ [Slot.lit 99, Slot.lit 0, Slot.lit 0, Slot.lit 0]).tick =
      some (mkM ⟨1, 2, 3, 4, 5, 6, 4⟩
        [Slot.lit 99, Slot.lit 0, Slot.lit 0, Slot.lit 0]) ∧
    (mkM ⟨1, 2, 3, 4, 5, 6, 0⟩ [Slot.op .LOAD, Slot.lit 0, Slot.lit 0, Slot.lit 0]).tick =
      some (mkM ⟨1, 2, 3, 4, 5, 6, 4⟩
        [Slot.op .LOAD, Slot.lit 0, Slot.lit 0, Slot.lit 0]) :=
  ⟨unknown_opcode_tick_noop
      (mkM ⟨1, 2, 3, 4, 5, 6, 0⟩ [Slot.lit 99, Slot.lit 0, Slot.lit 0, Slot.lit 0])
      (Slot.lit 99) (Slot.lit 0) (Slot.lit 0) (Slot.lit 0) rfl (by decide) (by decide),
    unknown_opcode_tick_noop
      (mkM ⟨1, 2, 3, 4, 5, 6, 0⟩ [Slot.op .LOAD, Slot.lit 0, Slot.lit 0, Slot.lit 0])
      (Slot.op .LOAD) (Slot.lit 0) (Slot.lit 0) (Slot.lit 0) rfl (by decide) (by decide)⟩

/-- C9: every completed tick ends with the jump flag down, whether or not
the executed instruction jumped. -/
theorem tick_clears_jump_flag (m m' : LEG) (h : m.tick = some m') :
    m'.jumping = false := by
  unfold LEG.tick at h
  split at h
  · exact absurd h (by simp)
  · split at h
    · exact absurd h (by simp)
    · split at h <;> (injection h with h; subst h) <;> simp_all

/-- Witness for C9: a concrete jumping tick (IFEQ on equal registers)
completes with the flag down. -/
theorem tick_clears_jump_flag_witness :
    (mkM ⟨0, 0, 0, 0, 0, 0, 0⟩
        [Slot.op .IFEQ, Slot.addr .REG0, Slot.addr .REG1, Slot.lit 12]).tick =
      some (mkM ⟨0, 0, 0, 0, 0, 0, 12⟩
        [Slot.op .IFEQ, Slot.addr .REG0, Slot.addr .REG1, Slot.lit 12]) ∧
    (mkM ⟨0, 0, 0, 0, 0, 0, 12⟩
        [Slot.op .IFEQ, Slot.addr .REG0, Slot.addr .REG1, Slot.lit 12]).jumping = false :=
  ⟨by decide,
    tick_clears_jump_flag
      (mkM ⟨0, 0, 0, 0, 0, 0, 0⟩
        [Slot.op .IFEQ, Slot.addr .REG0, Slot.addr .REG1, Slot.lit 12])
      (mkM ⟨0, 0, 0, 0, 0, 0, 12⟩
        [Slot.op .IFEQ, Slot.addr .REG0, Slot.addr .REG1, Slot.lit 12])
      (by decide)⟩

/-- C10: an ALU instruction (ADD, ADDI, AND, ANDI) whose destination is PC
writes its result to PC without raising the jump flag, so the tick still
advances sequentially: afterwards PC = (result + 4) mod 255 and the flag is
down. -/
theorem alu_pc_dest_still_advances :
    (∀ (m : LEG) (s1 s2 : Slot), m.jumping = false →
      m._read_program = some (Slot.op .ADD, s1, s2, Slot.addr .PC) →
      m.tick = some { m with registers :=
        { m.registers with PC := ((m._get s1 + m._get s2) % 255 + 4) % 255 } }) ∧
    (∀ (m : LEG) (s : Slot) (n : Nat), m.jumping = false →
      m._read_program = some (Slot.op .ADDI, s, Slot.lit n, Slot.addr .PC) →
      m.tick = some { m with registers :=
        { m.registers with PC := ((m._get s + n) % 255 + 4) % 255 } }) ∧
    (∀ (m : LEG) (s1 s2 : Slot), m.jumping = false →
      m._read_program = some (Slot.op .AND, s1, s2, Slot.addr .PC) →
      m.tick = some { m with registers :=
        { m.registers with PC := ((m._get s1 &&& m._get s2) + 4) % 255 } }) ∧
    (∀ (m : LEG) (s : Slot) (n : Nat), m.jumping = false →
      m._read_program = some (Slot.op .ANDI, s, Slot.lit n, Slot.addr .PC) →
      m.tick = some { m with registers :=
        { m.registers with PC := ((m._get s &&& n) + 4) % 255 } }) := by
  refine ⟨?_, ?_, ?_, ?_⟩
  · intro m s1 s2 hj hf
    have happ : m._apply (Slot.op .ADD) s1 s2 (Slot.addr .PC) = some
        { m with registers :=
          { m.registers with PC := (m._get s1 + m._get s2) % 255 } } := rfl
    simp [LEG.tick, hf, happ, hj]
  · intro m s n hj hf
    have happ : m._apply (Slot.op .ADDI) s (Slot.lit n) (Slot.addr .PC) = some
        { m with registers :=
          { m.registers with PC := (m._get s + n) % 255 } } := rfl
    simp [LEG.tick, hf, happ, hj]
  · intro m s1 s2 hj hf
    have happ : m._apply (Slot.op .AND) s1 s2 (Slot.addr .PC) = some
        { m with registers :=
          { m.registers with PC := m._get s1 &&& m._get s2 } } := rfl
    simp [LEG.tick, hf, happ, hj]
  · intro m s n hj hf
    have happ : m._apply (Slot.op .ANDI) s (Slot.lit n) (Slot.addr .PC) = some
        { m with registers :=
          { m.registers with PC := m._get s &&& n } } := rfl
    simp [LEG.tick, hf, happ, hj]

/-- Reading any slot through `_get` stays below 255 whenever the register
file satisfies the invariant. -/
theorem get_lt_255 (m : LEG) (s : Slot) (h : RegInv m.registers) : m._get s < 255 := by
  obtain ⟨h0, h1, h2, h3, h4, h5, h6⟩ := h
  cases s with
  | op o => simp [LEG._get]
  | lit n => simp [LEG._get]
  | addr a => cases a <;> simp_all [LEG._get, regLookup]

/-- Writing a value below 255 through `_set` preserves the register-file
invariant. -/
theorem set_preserves_inv (m : LEG) (s : Slot) (v : Nat) (h : RegInv m.registers)
    (hv : v < 255) : RegInv (m._set s v).registers := by
  obtain ⟨h0, h1, h2, h3, h4, h5, h6⟩ := h
  cases s with
  | op o => exact ⟨h0, h1, h2, h3, h4, h5, h6⟩
  | lit n => exact ⟨h0, h1, h2, h3, h4, h5, h6⟩
  | addr a => cases a <;>
    exact ⟨by assumption, by assumption, by assumption, by assumption,
      by assumption, by assumption, by assumption⟩

/-- `_apply` preserves the register-file invariant as long as every literal
operand is below 255. -/
theorem apply_preserves_inv (m m' : LEG) (o a1 a2 a3 : Slot)
    (hb1 : SlotOK a1) (hb2 : SlotOK a2) (hb3 : SlotOK a3)
    (h : RegInv m.registers) (ha : m._apply o a1 a2 a3 = some m') :
    RegInv m'.registers := by
  have hmod : ∀ x : Nat, x % 255 < 255 := fun x => Nat.mod_lt _ (by omega)
  cases o with
  | addr a =>
    simp only [LEG._apply, Option.some.injEq] at ha
    subst ha; exact h
  | lit n =>
    simp only [LEG._apply, Option.some.injEq] at ha
    subst ha; exact h
  | op oc =>
    cases oc with
    | ADD =>
      simp only [LEG._apply, LEG._opcodes, LEG._op_add, Option.some.injEq] at ha
      subst ha
      exact set_preserves_inv m a3 _ h (hmod _)
    | ADDI =>
      cases a2 with
      | lit b =>
        simp only [LEG._apply, LEG._opcodes, LEG._op_addi, Option.some.injEq] at ha
        subst ha
        exact set_preserves_inv m a3 _ h (hmod _)
      | op x => simp [LEG._apply, LEG._opcodes, LEG._op_addi] at ha
      | addr x => simp [LEG._apply, LEG._opcodes, LEG._op_addi] at ha
    | AND =>
      simp only [LEG._apply, LEG._opcodes, LEG._op_and, Option.some.injEq] at ha
      subst ha
      exact set_preserves_inv m a3 _ h
        (Nat.lt_of_le_of_lt Nat.and_le_left (get_lt_255 m a1 h))
    | ANDI =>
      cases a2 with
      | lit b =>
        simp only [LEG._apply, LEG._opcodes, LEG._op_andi, Option.some.injEq] at ha
        subst ha
        exact set_preserves_inv m a3 _ h
          (Nat.lt_of_le_of_lt Nat.and_le_left (get_lt_255 m a1 h))
      | op x => simp [LEG._apply, LEG._opcodes, LEG._op_andi] at ha
      | addr x => simp [LEG._apply, LEG._opcodes, LEG._op_andi] at ha
    | IFEQ =>
      by_cases heq : m._get a1 = m._get a2
      · cases a3 with
        | lit t =>
          simp only [LEG._apply, LEG._opcodes, LEG._op_ifeq, if_pos heq,
            Option.some.injEq] at ha
          subst ha
          obtain ⟨h0, h1, h2, h3, h4, h5, h6⟩ := h
          exact ⟨h0, h1, h2, h3, h4, h5, hb3⟩
        | op x => simp [LEG._apply, LEG._opcodes, LEG._op_ifeq, heq] at ha
        | addr x => simp [LEG._apply, LEG._opcodes, LEG._op_ifeq, heq] at ha
      · simp only [LEG._apply, LEG._opcodes, LEG._op_ifeq, if_neg heq,
          Option.some.injEq] at ha
        subst ha; exact h
    | IFNE =>
      simp only [LEG._apply, LEG._opcodes, Option.some.injEq] at ha
      subst ha; exact h
    | LOAD =>
      simp only [LEG._apply, LEG._opcodes, Option.some.injEq] at ha
      subst ha; exact h
    | SAVE =>
      simp only [LEG._apply, LEG._opcodes, Option.some.injEq] at ha
      subst ha; exact h

/-- A successful fetch reads all four slots out of the program list. -/
theorem read_program_mem (m : LEG) (o a1 a2 a3 : Slot)
    (h : m._read_program = some (o, a1, a2, a3)) :
    o ∈ m.program ∧ a1 ∈ m.program ∧ a2 ∈ m.program ∧ a3 ∈ m.program := by
  simp only [LEG._read_program, Option.bind_eq_some, Option.some.injEq,
    Prod.mk.injEq] at h
  obtain ⟨x0, e0, x1, e1, x2, e2, x3, e3, rfl, rfl, rfl, rfl⟩ := h
  exact ⟨List.getElem?_mem e0, List.getElem?_mem e1,
    List.getElem?_mem e2, List.getElem?_mem e3⟩

/-- C7 counterexample: starting from an all-zero register file (which
satisfies the invariant), the byte-valued instruction IFEQ REG0 REG1 255
ticks to a state with PC = 255, outside [0, 255). -/
theorem ifeq_byte_target_breaks_inv :
    RegInv (mkM ⟨0, 0, 0, 0, 0, 0, 0⟩
      [Slot.op .IFEQ, Slot.addr .REG0, Slot.addr .REG1, Slot.lit 255]).registers ∧
    (mkM ⟨0, 0, 0, 0, 0, 0, 0⟩
      [Slot.op .IFEQ, Slot.addr .REG0, Slot.addr .REG1, Slot.lit 255]).tick =
      some (mkM ⟨0, 0, 0, 0, 0, 0, 255⟩
        [Slot.op .IFEQ, Slot.addr .REG0, Slot.addr .REG1, Slot.lit 255]) ∧
    ¬ RegInv (mkM ⟨0, 0, 0, 0, 0, 0, 255⟩
      [Slot.op .IFEQ, Slot.addr .REG0, Slot.addr .REG1, Slot.lit 255]).registers := by
  decide

/-- C7 (amended): every opcode handler (via dispatch) and the tick driver
preserve the invariant that all stored register values lie in [0, 255),
for all operand inputs whose literals lie in [0, 255) — an IFEQ jump
target of 255 is the sole byte value excluded. -/
theorem inv_preserved_below_255 :
    (∀ (m m' : LEG) (o a1 a2 a3 : Slot), SlotOK a1 → SlotOK a2 → SlotOK a3 →
      RegInv m.registers → m._apply o a1 a2 a3 = some m' → RegInv m'.registers) ∧
    (∀ (m m' : LEG), (∀ s ∈ m.program, SlotOK s) → RegInv m.registers →
      m.tick = some m' → RegInv m'.registers) := by
  constructor
  · intro m m' o a1 a2 a3 hb1 hb2 hb3 h ha
    exact apply_preserves_inv m m' o a1 a2 a3 hb1 hb2 hb3 h ha
  · intro m m' hp h ht
    unfold LEG.tick at ht
    split at ht
    · exact absurd ht (by simp)
    · rename_i o a1 a2 a3 heq
      obtain ⟨mo, ma1, ma2, ma3⟩ := read_program_mem m o a1 a2 a3 heq
      split at ht
      · exact absurd ht (by simp)
      · rename_i m2 heq2
        have hm2 : RegInv m2.registers :=
          apply_preserves_inv m m2 o a1 a2 a3 (hp _ ma1) (hp _ ma2) (hp _ ma3) h heq2
        obtain ⟨g0, g1, g2, g3, g4, g5, g6⟩ := hm2
        split at ht <;> (injection ht with ht; subst ht)
        · exact ⟨g0, g1, g2, g3, g4, g5, Nat.mod_lt _ (by omega)⟩
        · exact ⟨g0, g1, g2, g3, g4, g5, g6⟩

/-- Witness for C7 (amended): a concrete ADD tick from registers
1,2,3,4,5,6 keeps every stored value in [0, 255). -/
theorem inv_preserved_below_255_witness :
    (mkM ⟨1, 2, 3, 4, 5, 6, 0⟩
        [Slot.op .ADD, Slot.addr .REG0, Slot.addr .REG1, Slot.addr .REG2]).tick =
      some (mkM ⟨1, 2, 3, 4, 5, 6, 4⟩
        [Slot.op .ADD, Slot.addr .REG0, Slot.addr .REG1, Slot.addr .REG2]) ∧
    RegInv (mkM ⟨1, 2, 3, 4, 5, 6, 4⟩
      [Slot.op .ADD, Slot.addr .REG0, Slot.addr .REG1, Slot.addr .REG2]).registers :=
  ⟨by decide,
    inv_preserved_below_255.2
      (mkM ⟨1, 2, 3, 4, 5, 6, 0⟩
        [Slot.op .ADD, Slot.addr .REG0, Slot.addr .REG1, Slot.addr .REG2])
      (mkM ⟨1, 2, 3, 4, 5, 6, 4⟩
        [Slot.op .ADD, Slot.addr .REG0, Slot.addr .REG1, Slot.addr .REG2])
      (by decide) (by decide) (by decide)⟩

set_option maxRecDepth 8192 in
/-- C8 counterexample: with a 255-entry program and PC = 252, the fetch of
`program[252 .. 255]` fails (index 255 is out of range), so the tick does
not complete. -/
theorem fetch_at_252_len255_fails :
    (mkM ⟨0, 0, 0, 0, 0, 0, 252⟩ (List.replicate 255 (Slot.lit 0))).program.length
      = 255 ∧
    (mkM ⟨0, 0, 0, 0, 0, 0, 252⟩ (List.replicate 255 (Slot.lit 0))).registers.PC
      = 252 ∧
    (mkM ⟨0, 0, 0, 0, 0, 0, 252⟩ (List.replicate 255 (Slot.lit 0)))._read_program
      = none ∧
    (mkM ⟨0, 0, 0, 0, 0, 0, 252⟩ (List.replicate 255 (Slot.lit 0))).tick = none :=
  ⟨rfl, rfl, rfl, rfl⟩

/-- C8 (amended): with a 256-entry program the fetch at PC = 252 succeeds,
and a tick whose instruction neither jumps nor rewrites PC ends with
PC = (252 + 4) mod 255 = 1. -/
theorem tick_at_252_len256 :
    (∀ m : LEG, m.registers.PC = 252 → m.program.length = 256 →
      (m._read_program).isSome = true) ∧
    (∀ (m m2 : LEG) (o a1 a2 a3 : Slot), m.jumping = false →
      m.registers.PC = 252 → m._read_program = some (o, a1, a2, a3) →
      m._apply o a1 a2 a3 = some m2 → m2.jumping = false →
      m2.registers.PC = 252 →
      m.tick = some { m2 with registers := { m2.registers with PC := 1 } }) := by
  constructor
  · intro m hpc hlen
    simp only [LEG._read_program]
    rw [hpc, List.getElem?_eq_getElem (by omega), List.getElem?_eq_getElem (by omega),
      List.getElem?_eq_getElem (by omega), List.getElem?_eq_getElem (by omega)]
    rfl
  · intro m m2 o a1 a2 a3 hj hpc hf ha hnj hpc2
    have ht : m.tick = some
        { m2 with registers := { m2.registers with PC := (m2.registers.PC + 4) % 255 } } := by
      simp [LEG.tick, hf, ha, hnj]
    rw [ht, hpc2]

set_option maxRecDepth 8192 in
/-- Witness for C8 (amended): a 256-entry zero program with PC = 252
fetches successfully and ticks to PC = 1. -/
theorem tick_at_252_len256_witness :
    ((mkM ⟨0, 0, 0, 0, 0, 0, 252⟩ (List.replicate 256 (Slot.lit 0)))._read_program).isSome
      = true ∧
    (mkM ⟨0, 0, 0, 0, 0, 0, 252⟩ (List.replicate 256 (Slot.lit 0))).tick =
      some (mkM ⟨0, 0, 0, 0, 0, 0, 1⟩ (List.replicate 256 (Slot.lit 0))) :=
  ⟨tick_at_252_len256.1 (mkM ⟨0, 0, 0, 0, 0, 0, 252⟩ (List.replicate 256 (Slot.lit 0)))
      rfl rfl,
    tick_at_252_len256.2 (mkM ⟨0, 0, 0, 0, 0, 0, 252⟩ (List.replicate 256 (Slot.lit 0)))
      (mkM ⟨0, 0, 0, 0, 0, 0, 252⟩ (List.replicate 256 (Slot.lit 0)))
      (Slot.lit 0) (Slot.lit 0) (Slot.lit 0) (Slot.lit 0)
      rfl rfl (by decide) rfl rfl rfl⟩

/-- Witness for C10: ADD REG0 REG1 with destination PC, from REG0 = 1,
REG1 = 2, ends the tick with PC = (3 + 4) mod 255 = 7, not 3. -/
theorem alu_pc_dest_still_advances_witness :
    (mkM ⟨1, 2, 0, 0, 0, 0, 0⟩
        [Slot.op .ADD, Slot.addr .REG0, Slot.addr .REG1, Slot.addr .PC]).tick =
      some (mkM ⟨1, 2, 0, 0, 0, 0, 7⟩
        [Slot.op .ADD, Slot.addr .REG0, Slot.addr .REG1, Slot.addr .PC]) ∧
    (7 : Nat) ≠ 3 :=
  ⟨alu_pc_dest_still_advances.1
      (mkM ⟨1, 2, 0, 0, 0, 0, 0⟩
        [Slot.op .ADD, Slot.addr .REG0, Slot.addr .REG1, Slot.addr .PC])
      (Slot.addr .REG0) (Slot.addr .REG1) rfl (by decide),
    by decide⟩
